import Mathlib

/-!
Verification of the watcher lifecycle engine of `fim_inotify`
(src/fimd_impl.cc), against its natural-language specification.

The C++ source is shallowly embedded: protobuf messages become structures,
`std::vector` / repeated fields become lists (with an explicit physical
buffer where the source reads logically-dead slots), the pid resolver and
the kernel descriptor allocators become function parameters, and the
handlers return an explicit trace of their side effects.
-/

/-! ## Kernel event-class constants (values from `<sys/inotify.h>`) -/

def IN_ACCESS : Nat := 0x001
def IN_MODIFY : Nat := 0x002
def IN_ATTRIB : Nat := 0x004
def IN_CLOSE_WRITE : Nat := 0x008
def IN_CLOSE_NOWRITE : Nat := 0x010
def IN_OPEN : Nat := 0x020
def IN_MOVED_FROM : Nat := 0x040
def IN_MOVED_TO : Nat := 0x080
def IN_CREATE : Nat := 0x100
def IN_DELETE : Nat := 0x200
def IN_DELETE_SELF : Nat := 0x400
def IN_MOVE_SELF : Nat := 0x800

/-- `IN_CLOSE` is defined by the kernel header as `IN_CLOSE_WRITE | IN_CLOSE_NOWRITE`. -/
def IN_CLOSE : Nat := IN_CLOSE_WRITE ||| IN_CLOSE_NOWRITE

/-- `IN_MOVE` is defined by the kernel header as `IN_MOVED_FROM | IN_MOVED_TO`. -/
def IN_MOVE : Nat := IN_MOVED_FROM ||| IN_MOVED_TO

/-- `IN_ALL_EVENTS` is defined by the kernel header as the union of the twelve
individual event classes, numerically `0xfff`. -/
def IN_ALL_EVENTS : Nat := 0xfff

/-- Modelled from the spec: the sentinel payload constant `MQ_EXIT_MESSAGE` is defined
in `lib/fimnotify.h`, which is not under `src/`; the spec only says it is a
distinguished payload whose byte prefix identifies a shutdown request. Its exact
text is immaterial to every claim, only its identity as the sentinel matters. -/
def MQ_EXIT_MESSAGE : String := "exit"

/-! ## Data model (protobuf messages of fim.proto, as used by fimd_impl.cc) -/

/-- A `fim.FimWatcherSubject`: ordered relative paths, event names, recursive flag. -/
structure FimWatcherSubject where
  path : List String
  event : List String
  recursive : Bool
deriving DecidableEq, Repr, Inhabited

/-- A `fim.FimdConfig` request: node name, pod name, container ids, log-format
template, subjects. -/
structure FimdConfig where
  nodename : String
  podname : String
  containerid : List String
  logformat : String
  subject : List FimWatcherSubject
deriving DecidableEq, Repr, Inhabited

/-- The physical buffer of a `google::protobuf::RepeatedField<int32>`.
`data` is the underlying storage and never shrinks; `size` is the logical
element count, so the logical contents are `data.take size`.
`RepeatedField::erase` shifts the subsequent elements one slot left and
decrements `size`, leaving the previous value of slot `size - 1` in place as a
stale, logically-dead entry.  The stale slots matter because
`FimdImpl::sendKillSignalToWatcher` keeps iterating to the `cend()` captured
before its erasures (src/fimd_impl.cc:270-275). -/
structure RepeatedField where
  data : List Int
  size : Nat
deriving DecidableEq, Repr, Inhabited

/-- Logical contents of the repeated field: the first `size` slots. -/
def RepeatedField.content (rf : RepeatedField) : List Int :=
  rf.data.take rf.size

/-- A freshly built repeated field holding exactly `l`. -/
def RepeatedField.ofList (l : List Int) : RepeatedField :=
  { data := l, size := l.length }

/-- `RepeatedField::Add`: append one element after the logical end. -/
def RepeatedField.push (rf : RepeatedField) (v : Int) : RepeatedField :=
  { data := rf.data.take rf.size ++ [v], size := rf.size + 1 }

/-- `RepeatedField::Clear` (`clear_processeventfd` at src/fimd_impl.cc:44):
the logical size drops to zero, the buffer is kept. -/
def RepeatedField.clear (rf : RepeatedField) : RepeatedField :=
  { data := rf.data, size := 0 }

/-- A `fim.FimdHandle`: one Watcher record of the registry (also the shape of a
`CreateWatch` response): node name, pod name, resolved pids, message-queue
descriptor, wake-up (eventfd) descriptors. -/
structure FimdHandle where
  nodename : String
  podname : String
  pid : List Int
  mqfd : Int
  processeventfd : RepeatedField
deriving DecidableEq, Repr, Inhabited

/-- The process-wide state of `FimdImpl`: the watcher registry `watchers_` and
the message-queue descriptor `mq_`. -/
structure FimdState where
  watchers : List FimdHandle
  mq : Int
deriving DecidableEq, Repr, Inhabited

/-- The two gRPC statuses the handlers produce. -/
inductive GrpcStatus where
  | ok
  | cancelled
deriving DecidableEq, Repr

/-! ## Generic first-match helpers (embedding of `std::find_if`) -/

/-- `std::find_if` returning the first element satisfying `p`. -/
def firstSat {α : Type} (p : α → Bool) : List α → Option α
  | [] => none
  | x :: xs => if p x then some x else firstSat p xs

/-- `std::find_if` returning the position of the first element satisfying `p`
(used where the source needs iterator/pointer identity). -/
def firstIdxSat {α : Type} (p : α → Bool) : List α → Option Nat
  | [] => none
  | x :: xs => if p x then some 0 else (firstIdxSat p xs).map (· + 1)

theorem firstSat_eq_none_iff {α : Type} (p : α → Bool) (l : List α) :
    firstSat p l = none ↔ ∀ x ∈ l, p x = false := by
  induction l with
  | nil => simp [firstSat]
  | cons x xs ih =>
    by_cases h : p x = true
    · simp [firstSat, h]
    · simp only [Bool.not_eq_true] at h
      simp [firstSat, h, ih]

theorem firstIdxSat_eq_none_iff {α : Type} (p : α → Bool) (l : List α) :
    firstIdxSat p l = none ↔ ∀ x ∈ l, p x = false := by
  induction l with
  | nil => simp [firstIdxSat]
  | cons x xs ih =>
    by_cases h : p x = true
    · simp [firstIdxSat, h]
    · simp only [Bool.not_eq_true] at h
      simp [firstIdxSat, h, ih]

theorem firstSat_congr {α : Type} {p q : α → Bool} (l : List α)
    (h : ∀ x, p x = q x) : firstSat p l = firstSat q l := by
  induction l with
  | nil => rfl
  | cons x xs ih => simp [firstSat, h x, ih]

theorem firstIdxSat_lt_length {α : Type} {p : α → Bool} {l : List α} {i : Nat}
    (h : firstIdxSat p l = some i) : i < l.length := by
  induction l generalizing i with
  | nil => simp [firstIdxSat] at h
  | cons x xs ih =>
    by_cases hp : p x = true
    · simp [firstIdxSat, hp] at h
      simp [List.length_cons]
      omega
    · simp only [Bool.not_eq_true] at hp
      simp [firstIdxSat, hp] at h
      obtain ⟨j, hj, rfl⟩ := h
      have := ih hj
      simp [List.length_cons]
      omega

/-! ## Registry lookup (src/fimd_impl.cc:104-118) -/

/-- Embeds the pid loop of `FimdImpl::findFimdWatcherByPids`
(src/fimd_impl.cc:106-111).  `foundPid` is re-assigned on every iteration of the
loop over `pids` (there is no accumulation and no early break), so its final
value records only whether the LAST element of `pids` occurs in the watcher's
pid list.  When `pids` is empty the C++ variable is read uninitialized; every
caller first rejects empty pid lists, and the model returns `false` there. -/
def foundPidLoop (watcherPids pids : List Int) : Bool :=
  match pids.getLast? with
  | some p => watcherPids.contains p
  | none => false

/-- The predicate of the `find_if` in `FimdImpl::findFimdWatcherByPids`
(src/fimd_impl.cc:105-113): node name equality and the `foundPid` loop result. -/
def watcherPred (nodeName : String) (pids : List Int) (w : FimdHandle) : Bool :=
  w.nodename == nodeName && foundPidLoop w.pid pids

/-- `FimdImpl::findFimdWatcherByPids` (src/fimd_impl.cc:104-118): first watcher
satisfying the predicate, `nullptr` (here `none`) otherwise. -/
def findFimdWatcherByPids (watchers : List FimdHandle) (nodeName : String)
    (pids : List Int) : Option FimdHandle :=
  firstSat (watcherPred nodeName pids) watchers

/-- Position form of `findFimdWatcherByPids`, used where the handlers need the
identity (the `shared_ptr`) of the found registry entry. -/
def findFimdWatcherIdx (watchers : List FimdHandle) (nodeName : String)
    (pids : List Int) : Option Nat :=
  firstIdxSat (watcherPred nodeName pids) watchers

/-- The lookup as the specification describes it (refinement target, built from
the spec's words for comparison with `findFimdWatcherByPids`): the first stored
Watcher whose node matches and whose pid list shares at least one element with
the given pid list. -/
def findWatcherSpec (watchers : List FimdHandle) (nodeName : String)
    (pids : List Int) : Option FimdHandle :=
  firstSat (fun w => w.nodename == nodeName && pids.any (fun p => w.pid.contains p)) watchers

/-! ## Path and event mapping (src/fimd_impl.cc:120-152) -/

/-- `FimdImpl::getPathArrayFromSubject` (src/fimd_impl.cc:120-134): one absolute
path per declared relative path, built by streaming `"/proc/" << pid << "/root"`
and then the relative path into a `stringstream`. -/
def getPathArrayFromSubject (pid : Int) (subject : FimWatcherSubject) : List String :=
  subject.path.map (fun path => "/proc/" ++ toString pid ++ "/root" ++ path)

/-- `FimdImpl::getEventMaskFromSubject` (src/fimd_impl.cc:136-152): fold the
`strcmp` chain over the subject's event names, OR-ing the mapped class into the
mask; unrecognized names fall through and leave the mask unchanged. -/
def getEventMaskFromSubject (subject : FimWatcherSubject) : Nat :=
  subject.event.foldl (fun mask evt =>
    if evt == "all" then mask ||| IN_ALL_EVENTS
    else if evt == "access" then mask ||| IN_ACCESS
    else if evt == "modify" then mask ||| IN_MODIFY
    else if evt == "attrib" then mask ||| IN_ATTRIB
    else if evt == "open" then mask ||| IN_OPEN
    else if evt == "close" then mask ||| IN_CLOSE
    else if evt == "create" then mask ||| IN_CREATE
    else if evt == "delete" then mask ||| IN_DELETE
    else if evt == "move" then mask ||| IN_MOVE
    else mask) 0

/-- The event names the `strcmp` chain recognizes. -/
def recognizedEvent (e : String) : Bool :=
  e == "all" || e == "access" || e == "modify" || e == "attrib" || e == "open" ||
  e == "close" || e == "create" || e == "delete" || e == "move"

/-- The kernel class a single recognized event name denotes, as the spec
describes it: fixed mappings, `close` and `move` as the unions of their two
kernel classes, `all` as the union of all twelve individual classes,
unrecognized names contributing nothing. -/
def specEventClass (e : String) : Nat :=
  if e == "all" then
    IN_ACCESS ||| IN_MODIFY ||| IN_ATTRIB ||| IN_CLOSE_WRITE ||| IN_CLOSE_NOWRITE |||
    IN_OPEN ||| IN_MOVED_FROM ||| IN_MOVED_TO ||| IN_CREATE ||| IN_DELETE |||
    IN_DELETE_SELF ||| IN_MOVE_SELF
  else if e == "access" then IN_ACCESS
  else if e == "modify" then IN_MODIFY
  else if e == "attrib" then IN_ATTRIB
  else if e == "open" then IN_OPEN
  else if e == "close" then IN_CLOSE_WRITE ||| IN_CLOSE_NOWRITE
  else if e == "create" then IN_CREATE
  else if e == "delete" then IN_DELETE
  else if e == "move" then IN_MOVED_FROM ||| IN_MOVED_TO
  else 0

/-- The spec-side mask: bitwise OR of the class of every event name. -/
def specEventMask (events : List String) : Nat :=
  events.foldr (fun e m => specEventClass e ||| m) 0

/-! ## Wake-up descriptor list maintenance (src/fimd_impl.cc:267-285) -/

/-- `FimdImpl::eraseEventProcessfd` (src/fimd_impl.cc:278-285): scan the logical
elements for the first one equal to `processfd` and erase it (`RepeatedField::erase`
shifts the following elements one slot left and truncates, so the physical slot
`size - 1` keeps its previous value as a stale entry); if no element matches,
nothing changes. -/
def RepeatedField.eraseEventProcessfd (rf : RepeatedField) (v : Int) : RepeatedField :=
  match firstIdxSat (fun x => x == v) rf.content with
  | none => rf
  | some i =>
    { data := rf.data.take i ++ (rf.data.drop (i + 1)).take (rf.size - 1 - i) ++
        rf.data.drop (rf.size - 1),
      size := rf.size - 1 }

/-- The loop body of `FimdImpl::sendKillSignalToWatcher` (src/fimd_impl.cc:270-275),
iterating the remaining `n` of the original `size` positions.  The `for_each`
runs from the `cbegin()` to the `cend()` captured before any erasure, so
position `i` is read from the physical buffer even after erasures have moved
the logical end below it; each value read is written the kill value (recorded
in the returned list, in order) and then passed to `eraseEventProcessfd`. -/
def killLoop (rf : RepeatedField) (i : Nat) : Nat → List Int × RepeatedField
  | 0 => ([], rf)
  | n + 1 =>
    let v := rf.data.getD i 0
    let r := killLoop (rf.eraseEventProcessfd v) (i + 1) n
    (v :: r.1, r.2)

/-- `FimdImpl::sendKillSignalToWatcher` (src/fimd_impl.cc:267-276) on the
watcher's wake-up-descriptor field: returns the descriptors written to, in
order, and the field as the loop leaves it. -/
def sendKillSignalToWatcher (rf : RepeatedField) : List Int × RepeatedField :=
  killLoop rf 0 rf.size

/-! ## Side-effect trace of the handlers -/

/-- Observable side effects of the Create/Destroy handlers, in program order:
sending a message to a queue descriptor (`mq_send`), writing the kill value to a
wake-up descriptor (`write`), opening (or closing, unlinking and reopening) the
message queue (`createMessageQueue`), spawning the Sink task, and spawning one
notification-worker task. -/
inductive Effect where
  | sendMq (mqfd : Int) (msg : String) (prio : Nat)
  | writeFd (fd : Int)
  | createMq (recreate : Bool)
  | spawnSink
  | spawnWorker (pid : Int) (paths : List String) (mask : Nat)
deriving DecidableEq, Repr

/-! ## Pid resolution (src/fimd_impl.cc:93-102) -/

/-- `FimdImpl::getPidsFromRequest` (src/fimd_impl.cc:93-102).  `resolver` stands
for the external container-runtime introspection
`FimdUtil::getPidForContainer(cleanContainerId(id))` (fimd_util is an external
collaborator per the spec and is not under src/); it returns `0` when the
container id does not resolve, and such ids are dropped. -/
def getPidsFromRequest (resolver : String → Int) (request : FimdConfig) : List Int :=
  (request.containerid.map resolver).filter (fun p => p != 0)

/-! ## Worker spawning (src/fimd_impl.cc:154-183) -/

/-- The inner loop of `FimdImpl::CreateWatch` (src/fimd_impl.cc:53-57) for one
pid: one `createInotifyWatcher` call per subject.  `fdSrc k` is the result of
the `k`-th `eventfd(0, EFD_CLOEXEC)` call of this request (`-1` on failure,
src/fimd_impl.cc:157-160); on failure the subject is skipped silently, otherwise
the new descriptor is appended to the response list and a worker is spawned.
Returns (descriptors added, effects, next allocator index). -/
def createPerSubject (fdSrc : Nat → Int) (pid : Int) (k : Nat) :
    List FimWatcherSubject → List Int × List Effect × Nat
  | [] => ([], [], k)
  | s :: rest =>
    let fd := fdSrc k
    let r := createPerSubject fdSrc pid (k + 1) rest
    if fd == -1 then r
    else
      (fd :: r.1,
       Effect.spawnWorker pid (getPathArrayFromSubject pid s) (getEventMaskFromSubject s) :: r.2.1,
       r.2.2)

/-- The outer loop of `FimdImpl::CreateWatch` (src/fimd_impl.cc:52-59): subjects
inner, pids outer. -/
def createPerPids (fdSrc : Nat → Int) (subjects : List FimWatcherSubject) (k : Nat) :
    List Int → List Int × List Effect × Nat
  | [] => ([], [], k)
  | pid :: rest =>
    let r₁ := createPerSubject fdSrc pid k subjects
    let r₂ := createPerPids fdSrc subjects r₁.2.2 rest
    (r₁.1 ++ r₂.1, r₁.2.1 ++ r₂.2.1, r₂.2.2)

/-! ## The Create and Destroy handlers (src/fimd_impl.cc:27-91) -/

/-- Result of `FimdImpl::CreateWatch`: gRPC status, post state, the response
message (absent on cancellation), and the side-effect trace. -/
structure CreateResult where
  status : GrpcStatus
  state : FimdState
  response : Option FimdHandle
  effects : List Effect
deriving DecidableEq, Repr

/-- Result of `FimdImpl::DestroyWatch`. -/
structure DestroyResult where
  status : GrpcStatus
  state : FimdState
  effects : List Effect
deriving DecidableEq, Repr

/-- `FimdImpl::CreateWatch` (src/fimd_impl.cc:27-71).  `resolver` is the
container-runtime collaborator, `fdSrc` the per-request `eventfd` results, and
`mqOpen` the result of the `mq_open` in `createMessageQueue`
(src/fimd_impl.cc:199, `-1` on failure; the handle is stored in `mq_` and in the
response either way, and the Sink is only spawned on success). -/
def createWatch (resolver : String → Int) (fdSrc : Nat → Int) (mqOpen : Int)
    (st : FimdState) (req : FimdConfig) : CreateResult :=
  let pids := getPidsFromRequest resolver req
  if pids.isEmpty then
    { status := GrpcStatus.cancelled, state := st, response := none, effects := [] }
  else
    let mqEffs := Effect.createMq (findFimdWatcherIdx st.watchers req.nodename pids).isSome ::
      (if mqOpen == -1 then [] else [Effect.spawnSink])
    let fds := (createPerPids fdSrc req.subject 0 pids).1
    let spawnEffs := (createPerPids fdSrc req.subject 0 pids).2.1
    let response : FimdHandle :=
      { nodename := req.nodename, podname := req.podname, pid := pids,
        mqfd := mqOpen, processeventfd := RepeatedField.ofList fds }
    match findFimdWatcherIdx st.watchers req.nodename pids with
    | none =>
      { status := GrpcStatus.ok,
        state := { watchers := st.watchers ++ [response], mq := mqOpen },
        response := some response,
        effects := mqEffs ++ spawnEffs }
    | some i =>
      let w := st.watchers.getD i default
      let kr := sendKillSignalToWatcher w.processeventfd
      let wCleared : FimdHandle := { w with processeventfd := kr.2.clear }
      let wUpdated : FimdHandle :=
        { wCleared with processeventfd := fds.foldl RepeatedField.push wCleared.processeventfd }
      { status := GrpcStatus.ok,
        state := { watchers := st.watchers.set i wUpdated, mq := mqOpen },
        response := some response,
        effects := kr.1.map Effect.writeFd ++ mqEffs ++ spawnEffs }

/-- `FimdImpl::DestroyWatch` (src/fimd_impl.cc:73-91): cancel when no pid
resolves; otherwise, if a watcher is found, send the sentinel to its
message-queue descriptor with priority 1 (src/fimd_impl.cc:287-292), then run
the kill loop over its wake-up descriptors; finally remove the found entry (the
`remove`/`erase` over the registry removes the found `shared_ptr`, and removes
nothing when the lookup returned `nullptr`). -/
def destroyWatch (resolver : String → Int) (st : FimdState) (req : FimdConfig) :
    DestroyResult :=
  let pids := getPidsFromRequest resolver req
  if pids.isEmpty then
    { status := GrpcStatus.cancelled, state := st, effects := [] }
  else
    match findFimdWatcherIdx st.watchers req.nodename pids with
    | none => { status := GrpcStatus.ok, state := st, effects := [] }
    | some i =>
      let w := st.watchers.getD i default
      { status := GrpcStatus.ok,
        state := { st with watchers := st.watchers.eraseIdx i },
        effects := Effect.sendMq w.mqfd MQ_EXIT_MESSAGE 1 ::
          (sendKillSignalToWatcher w.processeventfd).1.map Effect.writeFd }

/-! ## The Sink: `FimdImpl::startMessageQueue` (src/fimd_impl.cc:216-265) -/

/-- A `struct fimwatch_event` as the Sink reinterprets a received payload
(src/fimd_impl.cc:229): event mask, directory flag, and the two C-string
fields holding the watched path and the child entry name. -/
structure FimwatchEvent where
  event_mask : Nat
  is_dir : Bool
  path_name : String
  file_name : String
deriving DecidableEq, Repr, Inhabited

/-- The label-precedence chain of the Sink (src/fimd_impl.cc:232-244): test the
twelve individual classes in fixed order, pick the first whose bit is set;
`mask_str` stays the default-constructed empty string when none is. -/
def maskStr (m : Nat) : String :=
  if m &&& IN_ACCESS != 0 then "IN_ACCESS"
  else if m &&& IN_MODIFY != 0 then "IN_MODIFY"
  else if m &&& IN_ATTRIB != 0 then "IN_ATTRIB"
  else if m &&& IN_OPEN != 0 then "IN_OPEN"
  else if m &&& IN_CLOSE_WRITE != 0 then "IN_CLOSE_WRITE"
  else if m &&& IN_CLOSE_NOWRITE != 0 then "IN_CLOSE_NOWRITE"
  else if m &&& IN_CREATE != 0 then "IN_CREATE"
  else if m &&& IN_DELETE != 0 then "IN_DELETE"
  else if m &&& IN_DELETE_SELF != 0 then "IN_DELETE_SELF"
  else if m &&& IN_MOVED_FROM != 0 then "IN_MOVED_FROM"
  else if m &&& IN_MOVED_TO != 0 then "IN_MOVED_TO"
  else if m &&& IN_MOVE_SELF != 0 then "IN_MOVE_SELF"
  else ""

/-- Embeds the condition `fwevent->file_name != ""` at src/fimd_impl.cc:253.
`file_name` is a C character-array field of the C `struct fimwatch_event`
(the struct is reinterpreted from the raw bytes of a POSIX message-queue
payload through an `extern "C"` header, so its fields are plain C data), and
`""` is a string literal; the comparison is therefore between two pointers —
the decayed array and the literal's address — never between string contents.
The two addresses are always distinct, so the condition is true for every
event, whatever `file_name` holds. -/
def fileNameNeLiteral (_e : FimwatchEvent) : Bool :=
  true

/-- The `sep` value the spec prescribes (refinement target, from the spec's
words): `"/"` when `file_name` is non-empty, `""` when it is empty. -/
def specSep (e : FimwatchEvent) : String :=
  if e.file_name ≠ "" then "/" else ""

/-! ### The `path` field: `std::regex_replace(path_name, "/proc/[0-9]+/root", "")` -/

/-- The characters of the pattern's literal head `/proc/`. -/
def procChars : List Char := ['/', 'p', 'r', 'o', 'c', '/']

/-- The characters of the pattern's literal tail `/root`. -/
def rootChars : List Char := ['/', 'r', 'o', 'o', 't']

/-- Strip the literal prefix `pre` from `cs`; `none` when `cs` does not start
with it. -/
def dropPrefixChars : List Char → List Char → Option (List Char)
  | [], cs => some cs
  | _ :: _, [] => none
  | p :: ps, c :: cs => if c == p then dropPrefixChars ps cs else none

/-- Match the regular expression `/proc/[0-9]+/root` at the head of `cs`
(ECMAScript semantics: the greedy digit run must be followed by `/root`, and
since `/` is not a digit no shorter run can match); returns the remainder after
the match. -/
def matchProcRoot (cs : List Char) : Option (List Char) :=
  match dropPrefixChars procChars cs with
  | none => none
  | some rest =>
    let ds := rest.takeWhile Char.isDigit
    if ds.isEmpty then none
    else dropPrefixChars rootChars (rest.dropWhile Char.isDigit)

theorem dropPrefixChars_length {ps cs r : List Char}
    (h : dropPrefixChars ps cs = some r) : cs.length = ps.length + r.length := by
  induction ps generalizing cs with
  | nil => simp [dropPrefixChars] at h; simp [h]
  | cons p ps ih =>
    match cs with
    | [] => simp [dropPrefixChars] at h
    | c :: cs =>
      by_cases hc : (c == p) = true
      · simp [dropPrefixChars, hc] at h
        have := ih h
        simp [List.length_cons, this]
        omega
      · simp only [Bool.not_eq_true] at hc
        simp [dropPrefixChars, hc] at h

theorem matchProcRoot_length_lt {cs r : List Char}
    (h : matchProcRoot cs = some r) : r.length < cs.length := by
  unfold matchProcRoot at h
  match h1 : dropPrefixChars procChars cs with
  | none => rw [h1] at h; simp at h
  | some rest =>
    rw [h1] at h
    simp only at h
    by_cases hds : (rest.takeWhile Char.isDigit).isEmpty = true
    · rw [if_pos hds] at h; simp at h
    · rw [if_neg hds] at h
      have h2 := dropPrefixChars_length h1
      have h3 := dropPrefixChars_length h
      have h4 : (rest.takeWhile Char.isDigit).length + (rest.dropWhile Char.isDigit).length
          = rest.length := by
        rw [← List.length_append, List.takeWhile_append_dropWhile]
      have h5 : 1 ≤ (rest.takeWhile Char.isDigit).length := by
        cases htw : rest.takeWhile Char.isDigit with
        | nil => rw [htw] at hds; simp at hds
        | cons a as => simp [List.length_cons]
      simp only [procChars, rootChars, List.length_cons, List.length_nil] at h2 h3
      omega

/-- One left-to-right pass of `std::regex_replace(s, "/proc/[0-9]+/root", "")`
(src/fimd_impl.cc:230,251), fuel-indexed so that every application the theorems
use reduces by computation: at each position, if the pattern matches, drop the
match and continue after it; otherwise keep the character.  The fuel only ever
decreases by one per step while any step consumes at least one character, so
`length s` fuel always suffices. -/
def stripAllFuel : Nat → List Char → List Char
  | 0, l => l
  | _ + 1, [] => []
  | fuel + 1, c :: cs =>
    match matchProcRoot (c :: cs) with
    | some rest => stripAllFuel fuel rest
    | none => c :: stripAllFuel fuel cs

/-- `std::regex_replace(s, std::regex("/proc/[0-9]+/root"), "")`: remove every
(leftmost, non-overlapping) occurrence of the pattern in one pass. -/
def stripProcRootAll (l : List Char) : List Char :=
  stripAllFuel l.length l

/-- The `path` template argument the Sink renders (src/fimd_impl.cc:251). -/
def renderPath (s : String) : String :=
  String.mk (stripProcRootAll s.toList)

/-- The `path` value the spec prescribes (refinement target, from the spec's
words): `path_name` with a LEADING `/proc/<digits>/root` prefix stripped and
nothing else removed. -/
def stripLeadingProcRoot (s : String) : String :=
  match matchProcRoot s.toList with
  | some rest => String.mk rest
  | none => s

/-- Does the pattern `/proc/[0-9]+/root` match anywhere in `l`? -/
def containsProcRoot : List Char → Bool
  | [] => false
  | c :: cs => (matchProcRoot (c :: cs)).isSome || containsProcRoot cs

/-- The named template arguments the Sink passes to the formatter
(src/fimd_impl.cc:246-255), for an event record together with the node and pod
names recorded at Sink start. -/
structure RenderArgs where
  event : String
  ftype : String
  path : String
  file : String
  sep : String
  pod : String
  node : String
deriving DecidableEq, Repr

/-- The argument values of the `fmt::format_to` call (src/fimd_impl.cc:248-255). -/
def sinkRenderArgs (nodeName podName : String) (e : FimwatchEvent) : RenderArgs :=
  { event := maskStr e.event_mask,
    ftype := if e.is_dir then "directory" else "file",
    path := renderPath e.path_name,
    file := e.file_name,
    sep := if fileNameNeLiteral e then "/" else "",
    pod := podName,
    node := nodeName }

/-! ### The receive loop (src/fimd_impl.cc:216-224) -/

/-- What the received payload decodes to once the byte-prefix comparison with
`MQ_EXIT_MESSAGE` has been made: the sentinel, or an event record. -/
inductive SinkPayload where
  | exitMsg
  | event (e : FimwatchEvent)
deriving DecidableEq, Repr

/-- The observable actions of one iteration of the Sink's receive loop, in
program order: a store of the string-terminator byte to `buffer[idx]`, the
`continue` taken on a failed receive, leaving the loop on the sentinel, or
formatting and logging an event. -/
inductive SinkAct where
  | store (idx : Int)
  | contin
  | exitLoop
  | log (args : RenderArgs)
deriving DecidableEq, Repr

/-- One iteration of the Sink's receive loop (src/fimd_impl.cc:218-260).
`bytesRead` is the value `mq_receive` returned (`-1` on failure, otherwise the
received message length, which the queue attributes bound by `MQ_MAX_SIZE`).
The code stores the terminator at `buffer[bytes_read]` FIRST
(src/fimd_impl.cc:221) and only then compares `bytes_read` with `EOF`
(src/fimd_impl.cc:222), so the store action is emitted unconditionally before
the failure check. -/
def sinkIteration (nodeName podName : String) (bytesRead : Int)
    (payload : SinkPayload) : List SinkAct :=
  SinkAct.store bytesRead ::
  (if bytesRead == -1 then [SinkAct.contin]
   else match payload with
   | SinkPayload.exitMsg => [SinkAct.exitLoop]
   | SinkPayload.event e => [SinkAct.log (sinkRenderArgs nodeName podName e)])

/-- A terminator store at `buffer[idx]` is within the buffer's bounds exactly
when `0 ≤ idx ≤ maxSize` (the buffer is `char[MQ_MAX_SIZE + 1]`,
src/fimd_impl.cc:219). -/
def storeInBounds (maxSize : Nat) (idx : Int) : Prop :=
  0 ≤ idx ∧ idx ≤ maxSize

/-! ## Helper lemmas for the event-mask claim -/

theorem specEventClass_of_unrecognized {e : String} (h : recognizedEvent e = false) :
    specEventClass e = 0 := by
  unfold recognizedEvent at h
  simp only [Bool.or_eq_false_iff] at h
  obtain ⟨⟨⟨⟨⟨⟨⟨⟨h1, h2⟩, h3⟩, h4⟩, h5⟩, h6⟩, h7⟩, h8⟩, h9⟩ := h
  unfold specEventClass
  simp [h1, h2, h3, h4, h5, h6, h7, h8, h9]

theorem eventMask_step (m : Nat) (e : String) :
    (if e == "all" then m ||| IN_ALL_EVENTS
     else if e == "access" then m ||| IN_ACCESS
     else if e == "modify" then m ||| IN_MODIFY
     else if e == "attrib" then m ||| IN_ATTRIB
     else if e == "open" then m ||| IN_OPEN
     else if e == "close" then m ||| IN_CLOSE
     else if e == "create" then m ||| IN_CREATE
     else if e == "delete" then m ||| IN_DELETE
     else if e == "move" then m ||| IN_MOVE
     else m) = m ||| specEventClass e := by
  unfold specEventClass
  split_ifs <;> first | rfl | (exact (Nat.or_zero m).symm)

theorem eventMask_foldl (evts : List String) (m : Nat) :
    List.foldl (fun mask e => mask ||| specEventClass e) m evts
      = m ||| specEventMask evts := by
  induction evts generalizing m with
  | nil => simp [specEventMask, Nat.or_zero]
  | cons e es ih =>
    simp only [List.foldl_cons, specEventMask, List.foldr_cons]
    rw [ih]
    simp only [specEventMask]
    exact Nat.lor_assoc m (specEventClass e) _

theorem specEventMask_zero {evts : List String}
    (h : ∀ e ∈ evts, recognizedEvent e = false) : specEventMask evts = 0 := by
  induction evts with
  | nil => rfl
  | cons e es ih =>
    simp only [specEventMask, List.foldr_cons]
    rw [specEventClass_of_unrecognized (h e (List.mem_cons_self e es))]
    simpa [specEventMask] using ih (fun x hx => h x (List.mem_cons_of_mem e hx))

/-- Claim C7: for every Subject, the event mask is the bitwise OR of the kernel
class mapped to each recognized event name (`close` and `move` as the unions of
their two kernel classes), with `all` expanding to the union of all twelve
individual classes; unrecognized names contribute nothing, and a Subject whose
event-name set is empty or all-unrecognized yields mask 0. -/
theorem C7_event_mask (subject : FimWatcherSubject) :
    getEventMaskFromSubject subject = specEventMask subject.event ∧
    IN_ALL_EVENTS =
      (IN_ACCESS ||| IN_MODIFY ||| IN_ATTRIB ||| IN_CLOSE_WRITE ||| IN_CLOSE_NOWRITE |||
       IN_OPEN ||| IN_MOVED_FROM ||| IN_MOVED_TO ||| IN_CREATE ||| IN_DELETE |||
       IN_DELETE_SELF ||| IN_MOVE_SELF) ∧
    ((∀ e ∈ subject.event, recognizedEvent e = false) →
      getEventMaskFromSubject subject = 0) := by
  have hmain : getEventMaskFromSubject subject = specEventMask subject.event := by
    unfold getEventMaskFromSubject
    have hfun : (fun (mask : Nat) (evt : String) =>
        if evt == "all" then mask ||| IN_ALL_EVENTS
        else if evt == "access" then mask ||| IN_ACCESS
        else if evt == "modify" then mask ||| IN_MODIFY
        else if evt == "attrib" then mask ||| IN_ATTRIB
        else if evt == "open" then mask ||| IN_OPEN
        else if evt == "close" then mask ||| IN_CLOSE
        else if evt == "create" then mask ||| IN_CREATE
        else if evt == "delete" then mask ||| IN_DELETE
        else if evt == "move" then mask ||| IN_MOVE
        else mask)
        = fun (mask : Nat) (e : String) => mask ||| specEventClass e :=
      funext fun m => funext fun e => eventMask_step m e
    rw [hfun, eventMask_foldl, Nat.zero_or]
  refine ⟨hmain, by decide, fun h => ?_⟩
  rw [hmain, specEventMask_zero h]

/-- Witness for C7: a subject whose only event name is unrecognized satisfies
the hypothesis of the last conjunct and yields mask 0. -/
theorem C7_event_mask_witness :
    (∀ e ∈ (FimWatcherSubject.mk ["/etc"] ["gibberish"] false).event,
      recognizedEvent e = false) ∧
    getEventMaskFromSubject (FimWatcherSubject.mk ["/etc"] ["gibberish"] false) = 0 :=
  ⟨by decide, (C7_event_mask (FimWatcherSubject.mk ["/etc"] ["gibberish"] false)).2.2 (by decide)⟩

/-- Claim C8: for every pid and Subject, the path list has the same length and
order as the Subject's relative-path list, and its i-th element is the string
concatenation of `/proc/<pid>/root` and the i-th relative path verbatim. -/
theorem C8_paths (pid : Int) (subject : FimWatcherSubject) :
    (getPathArrayFromSubject pid subject).length = subject.path.length ∧
    ∀ i : Nat, (getPathArrayFromSubject pid subject)[i]?
      = subject.path[i]?.map (fun p => "/proc/" ++ toString pid ++ "/root" ++ p) := by
  refine ⟨by simp [getPathArrayFromSubject], fun i => ?_⟩
  simp [getPathArrayFromSubject]

/-- Claim C1 counterexample: a registry holding a single Watcher on node `n`
with pid list `[1]`, looked up with node `n` and pids `[1, 2]`.  The pid lists
share the element 1, so the claim requires the Watcher to be returned (the spec
rendition `findWatcherSpec` does return it), but the code's lookup returns
none: its `foundPid` flag only records the LAST queried pid, 2. -/
theorem C1_counterexample :
    findFimdWatcherByPids [⟨"n", "p", [1], 0, ⟨[], 0⟩⟩] "n" [1, 2] = none ∧
    findWatcherSpec [⟨"n", "p", [1], 0, ⟨[], 0⟩⟩] "n" [1, 2]
      = some ⟨"n", "p", [1], 0, ⟨[], 0⟩⟩ := by
  decide

/-- Claim C1 (amended): for every node name and non-empty pid list, the lookup
returns the first stored Watcher whose node name equals the given node name and
whose pid list contains the LAST element of the given pid list, and returns
none exactly when no stored Watcher satisfies this. -/
theorem C1_find_by_last_pid (watchers : List FimdHandle) (nodeName : String)
    (pids : List Int) (p : Int) (hlast : pids.getLast? = some p) :
    findFimdWatcherByPids watchers nodeName pids
      = firstSat (fun w => w.nodename == nodeName && w.pid.contains p) watchers ∧
    (findFimdWatcherByPids watchers nodeName pids = none ↔
      ∀ w ∈ watchers, (w.nodename == nodeName && w.pid.contains p) = false) := by
  have hcong : ∀ w, watcherPred nodeName pids w
      = (w.nodename == nodeName && w.pid.contains p) := by
    intro w
    unfold watcherPred foundPidLoop
    rw [hlast]
  constructor
  · exact firstSat_congr watchers hcong
  · unfold findFimdWatcherByPids
    rw [firstSat_congr watchers hcong]
    exact firstSat_eq_none_iff _ watchers

/-- Witness for C1: the amended lookup at a concrete registry and pid list. -/
theorem C1_find_by_last_pid_witness :
    (([2, 3] : List Int).getLast? = some 3) ∧
    (findFimdWatcherByPids [⟨"n", "p", [3], 0, ⟨[], 0⟩⟩] "n" [2, 3]
      = firstSat (fun w => w.nodename == "n" && w.pid.contains 3)
          [(⟨"n", "p", [3], 0, ⟨[], 0⟩⟩ : FimdHandle)] ∧
    (findFimdWatcherByPids [⟨"n", "p", [3], 0, ⟨[], 0⟩⟩] "n" [2, 3] = none ↔
      ∀ w ∈ [(⟨"n", "p", [3], 0, ⟨[], 0⟩⟩ : FimdHandle)],
        (w.nodename == "n" && w.pid.contains 3) = false)) :=
  ⟨by decide, C1_find_by_last_pid [⟨"n", "p", [3], 0, ⟨[], 0⟩⟩] "n" [2, 3] 3 (by decide)⟩

/-- Claim C3 (code bug): `DestroyWatch` on a registry holding one Watcher for
node `n` whose wake-up-descriptor list is `[10, 20, 30]` and whose queue
descriptor is 3.  The sentinel is indeed sent first with priority 1, but the
kill loop iterates to the `cend()` captured before its own erasures: it signals
descriptor 10, then — the erasure having shifted the survivors left under the
iterator — reads the slot now holding 30, signals 30 twice, never signals 20,
and leaves `[20]` in the list instead of leaving it empty. -/
theorem C3_destroy_skips_descriptor :
    (destroyWatch (fun _ => 1)
        { watchers := [⟨"n", "p", [1], 3, RepeatedField.ofList [10, 20, 30]⟩], mq := 3 }
        { nodename := "n", podname := "p", containerid := ["c"], logformat := "",
          subject := [] }).effects
      = [Effect.sendMq 3 MQ_EXIT_MESSAGE 1, Effect.writeFd 10, Effect.writeFd 30,
         Effect.writeFd 30] ∧
    (sendKillSignalToWatcher (RepeatedField.ofList [10, 20, 30])).2.content = [20] := by
  decide

/-- Claim C4: a Create or Destroy request whose container ids resolve to no
pids returns the cancellation status with no side effects: the state (registry
and queue descriptor) is unchanged, no response is produced, and the effect
trace is empty (no queue created or recreated, no worker spawned, nothing
signaled). -/
theorem C4_no_pid_cancel (resolver : String → Int) (fdSrc : Nat → Int) (mqOpen : Int)
    (st : FimdState) (req : FimdConfig)
    (h : getPidsFromRequest resolver req = []) :
    createWatch resolver fdSrc mqOpen st req
      = { status := GrpcStatus.cancelled, state := st, response := none, effects := [] } ∧
    destroyWatch resolver st req
      = { status := GrpcStatus.cancelled, state := st, effects := [] } := by
  constructor
  · unfold createWatch
    rw [h]
    rfl
  · unfold destroyWatch
    rw [h]
    rfl

/-- Witness for C4: a request whose single container id resolves to pid 0
(unresolved), against a non-empty registry. -/
theorem C4_no_pid_cancel_witness :
    (getPidsFromRequest (fun _ => 0)
        { nodename := "n", podname := "p", containerid := ["c1"], logformat := "",
          subject := [⟨["/etc"], ["create"], false⟩] } = []) ∧
    (createWatch (fun _ => 0) (fun _ => 7) 5
        { watchers := [⟨"n", "p", [1], 2, ⟨[3], 1⟩⟩], mq := 2 }
        { nodename := "n", podname := "p", containerid := ["c1"], logformat := "",
          subject := [⟨["/etc"], ["create"], false⟩] }
      = { status := GrpcStatus.cancelled,
          state := { watchers := [⟨"n", "p", [1], 2, ⟨[3], 1⟩⟩], mq := 2 },
          response := none, effects := [] } ∧
    destroyWatch (fun _ => 0)
        { watchers := [⟨"n", "p", [1], 2, ⟨[3], 1⟩⟩], mq := 2 }
        { nodename := "n", podname := "p", containerid := ["c1"], logformat := "",
          subject := [⟨["/etc"], ["create"], false⟩] }
      = { status := GrpcStatus.cancelled,
          state := { watchers := [⟨"n", "p", [1], 2, ⟨[3], 1⟩⟩], mq := 2 },
          effects := [] }) :=
  ⟨by decide, C4_no_pid_cancel (fun _ => 0) (fun _ => 7) 5
    { watchers := [⟨"n", "p", [1], 2, ⟨[3], 1⟩⟩], mq := 2 }
    { nodename := "n", podname := "p", containerid := ["c1"], logformat := "",
      subject := [⟨["/etc"], ["create"], false⟩] } (by decide)⟩

/-- Claim C5 (code bug): the rendered `sep` template field is `"/"` for EVERY
event record — including one whose `file_name` is empty — because
`fwevent->file_name != ""` compares the C-string field's address with the
address of the empty string literal, which are always distinct.  The spec
(`specSep`) prescribes `""` for an empty `file_name`. -/
theorem C5_sep_always_slash :
    (∀ (nodeName podName : String) (e : FimwatchEvent),
      (sinkRenderArgs nodeName podName e).sep = "/") ∧
    specSep ⟨IN_CREATE, false, "/proc/42/root/etc", ""⟩ = "" := by
  exact ⟨fun _ _ _ => rfl, by decide⟩

/-- Claim C9 (code bug): when `mq_receive` fails and returns -1, the iteration
still stores the string terminator at `buffer[bytes_read]` — index -1, out of
the buffer's bounds — BEFORE the failure check notices the -1 and continues the
loop. -/
theorem C9_terminator_store_oob (nodeName podName : String) (payload : SinkPayload)
    (maxSize : Nat) :
    sinkIteration nodeName podName (-1) payload
      = [SinkAct.store (-1), SinkAct.contin] ∧
    ¬ storeInBounds maxSize (-1) := by
  refine ⟨rfl, fun hb => ?_⟩
  have h0 : (0 : Int) ≤ -1 := hb.1
  omega

/-! ## Helper lemmas for the erase claim -/

theorem erase_eq_firstIdxSat (l : List Int) (v : Int) :
    l.erase v = (match firstIdxSat (fun x => x == v) l with
      | none => l
      | some i => l.take i ++ l.drop (i + 1)) := by
  induction l with
  | nil => rfl
  | cons a l ih =>
    by_cases hav : (a == v) = true
    · simp [List.erase_cons, hav, firstIdxSat]
    · simp only [Bool.not_eq_true] at hav
      simp only [List.erase_cons, hav, firstIdxSat, if_false, Bool.false_eq_true]
      cases h : firstIdxSat (fun x => x == v) l with
      | none => simp only [h, Option.map_none'] ; rw [ih, h]
      | some i =>
        simp only [h, Option.map_some']
        rw [ih, h]
        simp [List.take_succ_cons, List.drop_succ_cons]

theorem take_buffer_shift (data : List Int) (size i : Nat) (hi : i < size)
    (hs : size ≤ data.length) :
    (data.take i ++ (data.drop (i + 1)).take (size - 1 - i) ++
        data.drop (size - 1)).take (size - 1)
      = (data.take size).take i ++ (data.take size).drop (i + 1) := by
  have h1 : (data.take i).length = i := by rw [List.length_take]; omega
  have h2 : ((data.drop (i + 1)).take (size - 1 - i)).length = size - 1 - i := by
    rw [List.length_take, List.length_drop]; omega
  rw [List.append_assoc, List.take_append_eq_append_take, h1,
    List.take_append_eq_append_take, h2]
  have e0 : size - 1 - i - (size - 1 - i) = 0 := by omega
  rw [e0, List.take_zero, List.append_nil, List.take_take, List.take_take]
  have e1 : min (size - 1) i = i := by omega
  have e2 : min (size - 1 - i) (size - 1 - i) = size - 1 - i := by omega
  rw [e1, e2, List.take_take]
  have e3 : min i size = i := by omega
  rw [e3, List.drop_take]
  have e4 : size - (i + 1) = size - 1 - i := by omega
  rw [e4]

/-- Claim C10: removing a descriptor value deletes exactly the first occurrence
when present — the logical contents afterwards are `List.erase` of the
contents, so every other element and their relative order are unchanged — and a
list that does not contain the value is left entirely unchanged. -/
theorem C10_erase_first_occurrence (rf : RepeatedField) (v : Int)
    (hwf : rf.size ≤ rf.data.length) :
    (rf.eraseEventProcessfd v).content = rf.content.erase v ∧
    (v ∉ rf.content → rf.eraseEventProcessfd v = rf) := by
  have hnone_of : v ∉ rf.content → firstIdxSat (fun x => x == v) rf.content = none := by
    intro hv
    refine (firstIdxSat_eq_none_iff _ _).mpr (fun x hx => ?_)
    by_cases hxv : (x == v) = true
    · exact absurd (eq_of_beq hxv ▸ hx) hv
    · simpa using hxv
  constructor
  · cases h : firstIdxSat (fun x => x == v) rf.content with
    | none =>
      have hv : v ∉ rf.content := by
        intro hv
        have := (firstIdxSat_eq_none_iff (fun x => x == v) rf.content).mp h v hv
        simp at this
      rw [List.erase_of_not_mem hv]
      simp [RepeatedField.eraseEventProcessfd, h]
    | some i =>
      have hil : i < rf.content.length := firstIdxSat_lt_length h
      have hcsz : rf.content.length = rf.size := by
        simp [RepeatedField.content, List.length_take]
        omega
      have hi : i < rf.size := hcsz ▸ hil
      have herase : rf.eraseEventProcessfd v =
          { data := rf.data.take i ++ (rf.data.drop (i + 1)).take (rf.size - 1 - i) ++
              rf.data.drop (rf.size - 1),
            size := rf.size - 1 } := by
        unfold RepeatedField.eraseEventProcessfd
        rw [h]
      rw [erase_eq_firstIdxSat, h, herase]
      simp only [RepeatedField.content]
      exact take_buffer_shift rf.data rf.size i hi hwf
  · intro hv
    simp [RepeatedField.eraseEventProcessfd, hnone_of hv]

/-- Witness for C10: erasing 5 from a field holding `[7, 5, 9, 5]`. -/
theorem C10_erase_first_occurrence_witness :
    ((RepeatedField.ofList [7, 5, 9, 5]).size ≤
        (RepeatedField.ofList [7, 5, 9, 5]).data.length) ∧
    (((RepeatedField.ofList [7, 5, 9, 5]).eraseEventProcessfd 5).content
        = (RepeatedField.ofList [7, 5, 9, 5]).content.erase 5 ∧
    ((5 : Int) ∉ (RepeatedField.ofList [7, 5, 9, 5]).content →
      (RepeatedField.ofList [7, 5, 9, 5]).eraseEventProcessfd 5
        = RepeatedField.ofList [7, 5, 9, 5])) :=
  ⟨by decide, C10_erase_first_occurrence (RepeatedField.ofList [7, 5, 9, 5]) 5 (by decide)⟩

/-! ## Helper lemmas for the fresh-Create claim -/

/-- Number of successful `eventfd` allocations among `n` consecutive allocation
attempts starting at index `k` (`fdSrc j = -1` marks the `j`-th call failing,
src/fimd_impl.cc:157-160; a call is made, and the index advances, whether or
not it succeeds). -/
def succAllocCount (fdSrc : Nat → Int) : Nat → Nat → Nat
  | _, 0 => 0
  | k, n + 1 => (if fdSrc k == -1 then 0 else 1) + succAllocCount fdSrc (k + 1) n

theorem createPerSubject_counter (fdSrc : Nat → Int) (pid : Int)
    (ss : List FimWatcherSubject) :
    ∀ k : Nat, (createPerSubject fdSrc pid k ss).2.2 = k + ss.length := by
  induction ss with
  | nil => intro k; rfl
  | cons s rest ih =>
    intro k
    simp only [createPerSubject, List.length_cons]
    split
    · rw [ih]; omega
    · simp only []
      rw [ih]; omega

theorem createPerSubject_len (fdSrc : Nat → Int) (pid : Int)
    (ss : List FimWatcherSubject) :
    ∀ k : Nat, (createPerSubject fdSrc pid k ss).1.length
      = succAllocCount fdSrc k ss.length := by
  induction ss with
  | nil => intro k; rfl
  | cons s rest ih =>
    intro k
    simp only [createPerSubject, List.length_cons, succAllocCount]
    cases hb : fdSrc k == -1 with
    | false => simp only [Bool.false_eq_true, if_false, List.length_cons]; rw [ih]; omega
    | true => simp only [if_true, List.length_cons]; rw [ih]; omega

theorem succAllocCount_add (fdSrc : Nat → Int) : ∀ (a b k : Nat),
    succAllocCount fdSrc k (a + b)
      = succAllocCount fdSrc k a + succAllocCount fdSrc (k + a) b := by
  intro a
  induction a with
  | zero => intro b k; simp [succAllocCount]
  | succ a ih =>
    intro b k
    have h1 : a + 1 + b = (a + b) + 1 := by omega
    rw [h1]
    simp only [succAllocCount]
    rw [ih b (k + 1)]
    have h2 : k + 1 + a = k + (a + 1) := by omega
    rw [h2, Nat.add_assoc]

theorem succAllocCount_le (fdSrc : Nat → Int) : ∀ (n k : Nat),
    succAllocCount fdSrc k n ≤ n := by
  intro n
  induction n with
  | zero => intro k; exact Nat.le_refl 0
  | succ n ih =>
    intro k
    simp only [succAllocCount]
    have := ih (k + 1)
    split <;> omega

theorem succAllocCount_all (fdSrc : Nat → Int) (hfd : ∀ k, fdSrc k ≠ -1) :
    ∀ (n k : Nat), succAllocCount fdSrc k n = n := by
  intro n
  induction n with
  | zero => intro k; rfl
  | succ n ih =>
    intro k
    have hbeq : (fdSrc k == -1) = false := beq_eq_false_iff_ne.mpr (hfd k)
    simp only [succAllocCount, hbeq, Bool.false_eq_true, if_false]
    rw [ih]
    omega

theorem createPerPids_counter (fdSrc : Nat → Int) (ss : List FimWatcherSubject)
    (ps : List Int) :
    ∀ k : Nat, (createPerPids fdSrc ss k ps).2.2 = k + ps.length * ss.length := by
  induction ps with
  | nil => intro k; simp [createPerPids]
  | cons pid rest ih =>
    intro k
    simp only [createPerPids, List.length_cons]
    rw [ih, createPerSubject_counter]
    ring

theorem createPerPids_len (fdSrc : Nat → Int) (ss : List FimWatcherSubject)
    (ps : List Int) :
    ∀ k : Nat, (createPerPids fdSrc ss k ps).1.length
      = succAllocCount fdSrc k (ps.length * ss.length) := by
  induction ps with
  | nil => intro k; simp [createPerPids, succAllocCount]
  | cons pid rest ih =>
    intro k
    simp only [createPerPids, List.length_append, List.length_cons]
    rw [createPerSubject_len, createPerSubject_counter, ih]
    rw [show (rest.length + 1) * ss.length
        = ss.length + rest.length * ss.length by ring]
    rw [succAllocCount_add fdSrc ss.length (rest.length * ss.length) k]

/-- Claim C2 counterexample: a Create whose first `eventfd` allocation fails.
The request has one resolved pid and two subjects, the registry is empty (so no
prior Watcher covers the pids), and the handler still returns OK — a failed
`eventfd` merely skips its (pid, subject) pair (src/fimd_impl.cc:157-160).  The
single stored Watcher's wake-up-descriptor list has length 1, not
subjects × pids = 2 as the claim requires. -/
theorem C2_counterexample :
    (createWatch (fun _ => 1) (fun k => if k == 0 then -1 else 7) 5
        { watchers := [], mq := 0 }
        { nodename := "n", podname := "p", containerid := ["c1"], logformat := "",
          subject := [⟨["/a"], ["create"], false⟩, ⟨["/b"], ["modify"], false⟩] }).status
      = GrpcStatus.ok ∧
    ((createWatch (fun _ => 1) (fun k => if k == 0 then -1 else 7) 5
        { watchers := [], mq := 0 }
        { nodename := "n", podname := "p", containerid := ["c1"], logformat := "",
          subject := [⟨["/a"], ["create"], false⟩,
            ⟨["/b"], ["modify"], false⟩] }).state.watchers.map
        (fun w => w.processeventfd.content.length)) = [1] ∧
    ([⟨["/a"], ["create"], false⟩, ⟨["/b"], ["modify"], false⟩]
        : List FimWatcherSubject).length *
      (getPidsFromRequest (fun _ => 1)
        { nodename := "n", podname := "p", containerid := ["c1"], logformat := "",
          subject := [⟨["/a"], ["create"], false⟩,
            ⟨["/b"], ["modify"], false⟩] }).length = 2 := by
  decide

/-- Claim C2 (amended): after any successful Create for which no prior Watcher
on the requested node shares any of the resolved pids, the registry contains
exactly one Watcher for the requested (node, pid-set) — filtering the registry
on node name and pid list yields exactly one record — and that record's
wake-up-descriptor list initially has length equal to the number of successful
`eventfd` allocations among the subjects × pids allocation attempts.  That
number is at most subjects × pids, and equals subjects × pids whenever every
allocation succeeds; it falls short exactly when an allocation fails, which
silently skips that (pid, subject) pair while Create still returns OK. -/
theorem C2_create_fresh_amended (resolver : String → Int) (fdSrc : Nat → Int)
    (mqOpen : Int) (st : FimdState) (req : FimdConfig)
    (hne : getPidsFromRequest resolver req ≠ [])
    (hcov : ∀ w ∈ st.watchers, w.nodename = req.nodename →
      ∀ p ∈ getPidsFromRequest resolver req, p ∉ w.pid) :
    (createWatch resolver fdSrc mqOpen st req).status = GrpcStatus.ok ∧
    ((createWatch resolver fdSrc mqOpen st req).state.watchers.filter
        (fun w => w.nodename == req.nodename &&
          w.pid == getPidsFromRequest resolver req)).map
        (fun w => w.processeventfd.content.length)
      = [succAllocCount fdSrc 0
          ((getPidsFromRequest resolver req).length * req.subject.length)] ∧
    succAllocCount fdSrc 0 ((getPidsFromRequest resolver req).length * req.subject.length)
      ≤ req.subject.length * (getPidsFromRequest resolver req).length ∧
    ((∀ k, fdSrc k ≠ -1) →
      succAllocCount fdSrc 0
          ((getPidsFromRequest resolver req).length * req.subject.length)
        = req.subject.length * (getPidsFromRequest resolver req).length) := by
  have hempty : (getPidsFromRequest resolver req).isEmpty = false := by
    cases h : (getPidsFromRequest resolver req).isEmpty
    · rfl
    · exact absurd (List.isEmpty_iff.mp h) hne
  have hfindnone : firstIdxSat (watcherPred req.nodename (getPidsFromRequest resolver req))
      st.watchers = none := by
    refine (firstIdxSat_eq_none_iff _ _).mpr (fun w hw => ?_)
    unfold watcherPred foundPidLoop
    cases hlast : (getPidsFromRequest resolver req).getLast? with
    | none => simp
    | some p =>
      have hp : p ∈ getPidsFromRequest resolver req := List.mem_of_mem_getLast? hlast
      by_cases hn : w.nodename = req.nodename
      · have hnp : p ∉ w.pid := hcov w hw hn p hp
        simp [hnp]
      · have : (w.nodename == req.nodename) = false := beq_eq_false_iff_ne.mpr hn
        simp [this]
  have hcw : createWatch resolver fdSrc mqOpen st req =
      { status := GrpcStatus.ok,
        state :=
          { watchers := st.watchers ++
              [{ nodename := req.nodename, podname := req.podname,
                 pid := getPidsFromRequest resolver req, mqfd := mqOpen,
                 processeventfd := RepeatedField.ofList
                   ((createPerPids fdSrc req.subject 0
                     (getPidsFromRequest resolver req)).1) }],
            mq := mqOpen },
        response := some
          { nodename := req.nodename, podname := req.podname,
            pid := getPidsFromRequest resolver req, mqfd := mqOpen,
            processeventfd := RepeatedField.ofList
              ((createPerPids fdSrc req.subject 0 (getPidsFromRequest resolver req)).1) },
        effects := (Effect.createMq false ::
            (if mqOpen == -1 then [] else [Effect.spawnSink])) ++
          (createPerPids fdSrc req.subject 0 (getPidsFromRequest resolver req)).2.1 } := by
    unfold createWatch findFimdWatcherIdx
    simp only [hempty, hfindnone, Bool.false_eq_true, if_false, Option.isSome_none]
  refine ⟨by rw [hcw], ?_, ?_, ?_⟩
  · rw [hcw]
    rw [List.filter_append]
    have hfilnil : st.watchers.filter
        (fun w => w.nodename == req.nodename &&
          w.pid == getPidsFromRequest resolver req) = [] := by
      refine List.filter_eq_nil_iff.mpr (fun w hw => ?_)
      intro hpred
      simp only [Bool.and_eq_true, beq_iff_eq] at hpred
      obtain ⟨p, hp⟩ := List.exists_mem_of_ne_nil _ hne
      exact hcov w hw hpred.1 p hp (hpred.2 ▸ hp)
    rw [hfilnil, List.nil_append]
    simp [RepeatedField.ofList, RepeatedField.content, List.take_length,
      createPerPids_len fdSrc]
  · exact Nat.le_trans (succAllocCount_le fdSrc _ 0)
      (Nat.le_of_eq (Nat.mul_comm _ _))
  · intro hfd
    rw [succAllocCount_all fdSrc hfd]
    exact Nat.mul_comm _ _

/-- Witness for C2 (amended): one resolved pid, two subjects, the first
`eventfd` allocation failing; the single stored Watcher holds one descriptor,
which is `succAllocCount` of the two attempts. -/
theorem C2_create_fresh_amended_witness :
    (getPidsFromRequest (fun _ => 1)
        { nodename := "n", podname := "p", containerid := ["c1"], logformat := "",
          subject := [⟨["/a"], ["create"], false⟩, ⟨["/b"], ["modify"], false⟩] } ≠ []) ∧
    ((createWatch (fun _ => 1) (fun k => if k == 0 then -1 else 7) 5
        { watchers := [], mq := 0 }
        { nodename := "n", podname := "p", containerid := ["c1"], logformat := "",
          subject := [⟨["/a"], ["create"], false⟩, ⟨["/b"], ["modify"], false⟩] }).status
      = GrpcStatus.ok ∧
    ((createWatch (fun _ => 1) (fun k => if k == 0 then -1 else 7) 5
        { watchers := [], mq := 0 }
        { nodename := "n", podname := "p", containerid := ["c1"], logformat := "",
          subject := [⟨["/a"], ["create"], false⟩,
            ⟨["/b"], ["modify"], false⟩] }).state.watchers.filter
        (fun w => w.nodename == "n" && w.pid == [1])).map
        (fun w => w.processeventfd.content.length)
      = [succAllocCount (fun k => if k == 0 then -1 else 7) 0 (1 * 2)] ∧
    succAllocCount (fun k => if k == 0 then -1 else 7) 0 (1 * 2) ≤ 2 * 1 ∧
    ((∀ k : Nat, (if k == 0 then (-1 : Int) else 7) ≠ -1) →
      succAllocCount (fun k => if k == 0 then -1 else 7) 0 (1 * 2) = 2 * 1)) :=
  ⟨by decide,
   C2_create_fresh_amended (fun _ => 1) (fun k => if k == 0 then -1 else 7) 5
     { watchers := [], mq := 0 }
     { nodename := "n", podname := "p", containerid := ["c1"], logformat := "",
       subject := [⟨["/a"], ["create"], false⟩, ⟨["/b"], ["modify"], false⟩] }
     (by decide) (by simp)⟩

/-! ## Helper lemmas for the path-stripping claim -/

theorem dropPrefixChars_append (ps rest : List Char) :
    dropPrefixChars ps (ps ++ rest) = some rest := by
  induction ps with
  | nil => rfl
  | cons p ps ih => simp [dropPrefixChars, ih]

theorem takeWhile_digits_append (ds tail : List Char) (h : ∀ c ∈ ds, c.isDigit) :
    (ds ++ '/' :: tail).takeWhile Char.isDigit = ds ∧
    (ds ++ '/' :: tail).dropWhile Char.isDigit = '/' :: tail := by
  induction ds with
  | nil =>
    have hs : ('/' : Char).isDigit = false := by decide
    simp [List.takeWhile_cons, List.dropWhile_cons, hs]
  | cons d ds ih =>
    have hd : d.isDigit = true := h d (List.mem_cons_self d ds)
    have ih' := ih (fun c hc => h c (List.mem_cons_of_mem d hc))
    simp [List.takeWhile_cons, List.dropWhile_cons, hd, ih'.1, ih'.2]

theorem stripAllFuel_congr : ∀ (f₁ f₂ : Nat) (l : List Char),
    l.length ≤ f₁ → l.length ≤ f₂ → stripAllFuel f₁ l = stripAllFuel f₂ l := by
  intro f₁
  induction f₁ with
  | zero =>
    intro f₂ l h1 _
    have : l = [] := List.length_eq_zero.mp (Nat.le_zero.mp h1)
    subst this
    cases f₂ <;> rfl
  | succ g₁ ih =>
    intro f₂ l h1 h2
    cases l with
    | nil => cases f₂ <;> rfl
    | cons c cs =>
      cases f₂ with
      | zero => simp [List.length_cons] at h2
      | succ g₂ =>
        simp only [stripAllFuel]
        cases hm : matchProcRoot (c :: cs) with
        | some rest =>
          have hlt := matchProcRoot_length_lt hm
          simp only [List.length_cons] at h1 h2 hlt
          exact ih g₂ rest (by omega) (by omega)
        | none =>
          simp only [List.length_cons] at h1 h2
          rw [ih g₂ cs (by omega) (by omega)]

theorem stripProcRootAll_match_some {l rest : List Char}
    (h : matchProcRoot l = some rest) :
    stripProcRootAll l = stripProcRootAll rest := by
  cases l with
  | nil => simp [matchProcRoot, procChars, dropPrefixChars] at h
  | cons c cs =>
    have hlt := matchProcRoot_length_lt h
    simp only [List.length_cons] at hlt
    unfold stripProcRootAll
    simp only [List.length_cons, stripAllFuel]
    rw [h]
    exact stripAllFuel_congr cs.length rest.length rest (by omega) (Nat.le_refl _)

theorem stripProcRootAll_of_not_contains : ∀ l : List Char,
    containsProcRoot l = false → stripProcRootAll l = l := by
  intro l
  induction l with
  | nil => intro _; rfl
  | cons c cs ih =>
    intro h
    simp only [containsProcRoot, Bool.or_eq_false_iff] at h
    obtain ⟨h1, h2⟩ := h
    have hm : matchProcRoot (c :: cs) = none := by
      cases hmm : matchProcRoot (c :: cs) with
      | none => rfl
      | some r => rw [hmm] at h1; simp at h1
    unfold stripProcRootAll
    simp only [List.length_cons, stripAllFuel]
    rw [hm]
    rw [show stripAllFuel cs.length cs = stripProcRootAll cs from rfl, ih h2]

/-- Claim C6 counterexample: the Sink renders `path` with
`std::regex_replace`, which removes EVERY occurrence of `/proc/<digits>/root`,
not only a leading prefix.  For `path_name = "/pro/proc/2/rootc/3/root"` there
is no leading prefix to strip (the spec rendition `stripLeadingProcRoot` leaves
it unchanged), yet the code renders `"/proc/3/root"` — which moreover itself
begins with a `/proc/<digits>/root` prefix, refuting the claim's second clause
as well. -/
theorem C6_counterexample :
    renderPath "/pro/proc/2/rootc/3/root" = "/proc/3/root" ∧
    stripLeadingProcRoot "/pro/proc/2/rootc/3/root" = "/pro/proc/2/rootc/3/root" ∧
    (matchProcRoot "/proc/3/root".toList).isSome = true := by
  decide

/-- Claim C6 (amended): the rendered `path` equals `path_name` with every
occurrence of `/proc/<digits>/root` removed in one left-to-right pass: a
leading `/proc/<digits>/root` prefix is always stripped with the remainder
processed the same way, and a `path_name` containing no occurrence at all is
rendered unchanged.  (The rendered field may still begin with
`/proc/<digits>/root` when removals concatenate surrounding text into a new
occurrence.) -/
theorem C6_path_strips_every_occurrence (ds rest : List Char)
    (h1 : ds ≠ []) (h2 : ∀ c ∈ ds, c.isDigit) :
    renderPath (String.mk (procChars ++ (ds ++ (rootChars ++ rest))))
      = String.mk (stripProcRootAll rest) ∧
    (containsProcRoot rest = false →
      renderPath (String.mk rest) = String.mk rest) := by
  have hm : matchProcRoot (procChars ++ (ds ++ (rootChars ++ rest))) = some rest := by
    unfold matchProcRoot
    rw [dropPrefixChars_append]
    obtain ⟨ht, hd⟩ := takeWhile_digits_append ds (['r', 'o', 'o', 't'] ++ rest) h2
    simp only [show rootChars ++ rest = '/' :: (['r', 'o', 'o', 't'] ++ rest) from rfl]
    rw [ht, hd]
    have hne : ds.isEmpty = false := by
      cases ds
      · exact absurd rfl h1
      · rfl
    rw [hne]
    simp only [Bool.false_eq_true, if_false]
    exact dropPrefixChars_append rootChars rest
  constructor
  · exact congrArg String.mk (stripProcRootAll_match_some hm)
  · intro hc
    exact congrArg String.mk (stripProcRootAll_of_not_contains rest hc)

/-- Witness for C6: pid digits `42`, remainder `/etc`, which contains no
occurrence of the pattern. -/
theorem C6_path_strips_every_occurrence_witness :
    ((['4', '2'] : List Char) ≠ []) ∧
    (∀ c ∈ (['4', '2'] : List Char), c.isDigit) ∧
    (renderPath (String.mk (procChars ++ ((['4', '2'] : List Char) ++
          (rootChars ++ "/etc".toList))))
        = String.mk (stripProcRootAll "/etc".toList) ∧
      (containsProcRoot "/etc".toList = false →
        renderPath (String.mk "/etc".toList) = String.mk "/etc".toList)) :=
  ⟨by decide, by decide,
   C6_path_strips_every_occurrence ['4', '2'] "/etc".toList (by decide) (by decide)⟩
